import Mathlib

/-!
# Verification of `main.py` (multi-file-processor)

A shallow embedding of `process_files` and `print_progress` from
`src/main.py`.  Filesystem paths are modelled as lists of path
components; the directory tree walked by `os.walk` and the outcome of
each external-command dispatch are supplied by an `Env` record, so the
run becomes a pure function from configuration and environment to an
observable trace (exit result, `os.makedirs` calls, built command
vectors, `subprocess.run` dispatches, progress-bar invocations,
counters, final summary).
-/

namespace MFP

/-- A filesystem path, as its list of components (`os.path.join` of
components is list append; `os.path.dirname` of a relative file path is
`dropLast`; `os.path.basename` is the last component). -/
abbrev Path := List String

/-- Render a component path as a string, for the command argument vector
(`os.path.join` with `/` separators). -/
def pathStr (p : Path) : String := String.intercalate "/" p

/-- Python `str.lower()` restricted to ASCII, as used on file names and
the extension in `filename.lower().endswith(extension.lower())`
(main.py line 67 / 85). -/
def pyLower (s : String) : String := String.mk (s.toList.map Char.toLower)

/-- Python `str.endswith`: suffix test on the character list. -/
def strEndsWith (s suf : String) : Bool := suf.toList.isSuffixOf s.toList

/-- Python `str.startswith`: the test at main.py line 55. -/
def strStartsWith (s pre : String) : Bool := pre.toList.isPrefixOf s.toList

/-- The match test of main.py lines 67 and 85:
`filename.lower().endswith(extension.lower())`. -/
def pyMatches (filename ext : String) : Bool :=
  strEndsWith (pyLower filename) (pyLower ext)

/-- Lines 54-56: `if not extension.startswith('.'): extension = '.' + extension`. -/
def normalizeExt (e : String) : String :=
  if strStartsWith e "." then e else "." ++ e

/-- `os.path.splitext` on a base name (no separator present), CPython
semantics: split at the last dot, unless every character before that dot
is itself a dot (leading dots belong to the root). -/
def splitextList (l : List Char) : List Char × List Char :=
  match l.reverse.findIdx? (fun c => c == '.') with
  | none => (l, [])
  | some k =>
      let i := l.length - (k + 1)
      if (l.take i).any (fun c => c != '.') then (l.take i, l.drop i) else (l, [])

/-- `os.path.splitext` on strings (main.py line 93). -/
def splitext (s : String) : String × String :=
  (String.mk (splitextList s.toList).1, String.mk (splitextList s.toList).2)

/-- Modelled from the spec: the glob matching the spec's File Matcher
describes (`*` = any run of characters, `?` = a single character, other
characters literal and case-sensitive), with fuel for structural
recursion.  `src/main.py` contains no glob matching; this definition
exists only to compare the spec's selection rule with the code's. -/
def globMatchFuel : Nat → List Char → List Char → Bool
  | 0, _, _ => false
  | _ + 1, [], [] => true
  | _ + 1, [], _ :: _ => false
  | fuel + 1, '*' :: ps, [] => globMatchFuel fuel ps []
  | fuel + 1, '*' :: ps, c :: cs =>
      globMatchFuel fuel ps (c :: cs) || globMatchFuel fuel ('*' :: ps) cs
  | fuel + 1, '?' :: ps, _ :: cs => globMatchFuel fuel ps cs
  | _ + 1, '?' :: _, [] => false
  | fuel + 1, p :: ps, c :: cs => (p == c) && globMatchFuel fuel ps cs
  | _ + 1, _ :: _, [] => false

/-- Modelled from the spec: case-sensitive glob match of a pattern
against a base name. -/
def globMatch (pat name : String) : Bool :=
  globMatchFuel (pat.length + name.length + 1) pat.toList name.toList

/-- The configuration of one `process_files` call (its parameters,
main.py line 36).  `command_prefix` is `cmdTemplate`, `output_file_prefix`
is `fnamePre`, `output_subdir` is `outSubdir` (as components). -/
structure Config where
  sourceDir : Path
  extension : String
  cmdTemplate : List String
  dryRun : Bool
  verbose : Bool
  fnamePre : String
  outSubdir : Path

/-- The places inside one file's processing where an operator interrupt
(`KeyboardInterrupt`) can arrive, distinguished by whether the code
point lies inside the `try` of main.py lines 114-133. -/
inductive Loc where
  /-- during path derivation, lines 92-103 (outside any `try`) -/
  | derive
  /-- during the dry-run print, line 112 (outside any `try`) -/
  | dryRunPrint
  /-- during the `print_progress` call, line 121 (inside the `try`) -/
  | progressPrint
  /-- during `subprocess.run`, line 123 (inside the `try`) -/
  | spawn
  /-- during the success output, lines 126-133 (inside the `try`) -/
  | successPrint
deriving DecidableEq

/-- What happens when one matched file is processed: the outcome of its
`subprocess.run` call, or an interrupt arriving at some location.  An
interrupt location that cannot occur in the current mode (e.g.
`dryRunPrint` when not in dry-run) behaves as `success`. -/
inductive FileEvent where
  /-- the child process exits with status 0 -/
  | success
  /-- `FileNotFoundError`: the executable cannot be spawned (line 139) -/
  | notFound
  /-- `subprocess.CalledProcessError`: non-zero exit status (line 142) -/
  | calledProcessError (code : Nat)
  /-- any other exception from the `try` body (line 150) -/
  | unexpectedError
  /-- `KeyboardInterrupt` arriving at location `l` -/
  | interrupt (l : Loc)
deriving DecidableEq

/-- The environment of a run: the directory tree (as `os.walk` yields
it: each entry is a directory, given relative to the source root, with
its file names), which `os.makedirs` targets fail for a reason other
than already-exists, whether an interrupt arrives during the counting
scan, and the event for the i-th matched file. -/
structure Env where
  isDir : Bool
  walk : List (Path × List String)
  mkdirFails : Path → Bool
  scanInterrupt : Bool
  events : Nat → FileEvent

/-- How the run ends. -/
inductive RunResult where
  /-- `sys.exit(code)` / `exit(code)` was called -/
  | exit (code : Nat)
  /-- `process_files` returned normally (lines 154-159 ran) -/
  | completed
  /-- an uncaught `KeyboardInterrupt` propagated out of `process_files` -/
  | uncaughtKeyboardInterrupt
  /-- an uncaught `OSError` from `os.makedirs` on this directory -/
  | uncaughtOSError (dir : Path)
deriving DecidableEq

/-- The observable trace of one run. -/
structure RunTrace where
  result : RunResult
  /-- directories passed to `os.makedirs`, in order -/
  mkdirCalls : List Path
  /-- command vectors built at line 108, in order -/
  builtCommands : List (List String)
  /-- command vectors passed to `subprocess.run` at line 123, in order -/
  dispatches : List (List String)
  /-- `(iteration, total)` arguments of each `print_progress` call -/
  progressCalls : List (Nat × Nat)
  /-- final value of `processed_files_counter` -/
  processed : Nat
  /-- `total_files_to_process` -/
  total : Nat
  /-- `(total, processed)` of the line-159 summary, if it was printed -/
  summary : Option (Nat × Nat)
deriving DecidableEq

/-- Accumulated trace fields while the per-file loop runs. -/
structure LoopAcc where
  mkd : List Path
  bc : List (List String)
  dp : List (List String)
  pc : List (Nat × Nat)
deriving DecidableEq

/-- The matched files, in traversal order: both `os.walk` passes
(lines 65-68 and 83-85) filter each directory's file list with
`pyMatches`. -/
def matchedFiles (walk : List (Path × List String)) (ext : String) :
    List (Path × String) :=
  walk.flatMap fun e => (e.2.filter fun f => pyMatches f ext).map fun f => (e.1, f)

/-- Line 100: `os.path.join(output_base_dir, output_subdir, os.path.dirname(relative_path))`. -/
def deriveDir (cfg : Config) (relDir : Path) : Path :=
  ["test"] ++ cfg.outSubdir ++ relDir

/-- Line 96: `f"{output_file_prefix}{original_name}{original_ext}"` with
`original_name, original_ext = os.path.splitext(basename)` (line 93). -/
def newFileName (cfg : Config) (filename : String) : String :=
  cfg.fnamePre ++ (splitext filename).1 ++ (splitext filename).2

/-- Line 103: `os.path.join(relative_output_dir, new_file_name)`. -/
def derivePath (cfg : Config) (relDir : Path) (filename : String) : Path :=
  deriveDir cfg relDir ++ [newFileName cfg filename]

/-- Line 108: `command_prefix + [original_file_path, new_file_path]`. -/
def buildCommand (cfg : Config) (relDir : Path) (filename : String) :
    List String :=
  cfg.cmdTemplate ++
    [pathStr (cfg.sourceDir ++ relDir ++ [filename]),
     pathStr (derivePath cfg relDir filename)]

/-- A trace for a run that stops inside the loop (no summary printed). -/
def abortTrace (r : RunResult) (acc : LoopAcc) (processed total : Nat) : RunTrace :=
  { result := r, mkdirCalls := acc.mkd, builtCommands := acc.bc,
    dispatches := acc.dp, progressCalls := acc.pc,
    processed := processed, total := total, summary := none }

/-- The trace after the loop falls through to lines 154-159: the final
100% progress call and the summary. -/
def finishTrace (total processed : Nat) (acc : LoopAcc) : RunTrace :=
  { result := .completed, mkdirCalls := acc.mkd, builtCommands := acc.bc,
    dispatches := acc.dp, progressCalls := acc.pc ++ [(total, total)],
    processed := processed, total := total,
    summary := some (total, processed) }

/-- One iteration of the inner loop (lines 86-152) for the matched file
`(relDir, filename)` with 0-based index `i` (so `processed_files_counter`
becomes `i + 1` at line 89).  Returns the final trace if the run stops
here, otherwise the grown accumulator. -/
def fileStep (cfg : Config) (env : Env) (total : Nat) (relDir : Path)
    (filename : String) (i : Nat) (acc : LoopAcc) : Except RunTrace LoopAcc :=
  let ev := env.events i
  -- an interrupt during lines 92-103 is outside every try: it propagates
  if ev = FileEvent.interrupt Loc.derive then
    .error (abortTrace .uncaughtKeyboardInterrupt acc (i + 1) total)
  else
    let outDir := deriveDir cfg relDir
    let acc1 : LoopAcc := { acc with mkd := acc.mkd ++ [outDir] }
    -- line 102: os.makedirs(relative_output_dir, exist_ok=True), outside any try
    if env.mkdirFails outDir then
      .error (abortTrace (.uncaughtOSError outDir) acc1 (i + 1) total)
    else
      let cmd := buildCommand cfg relDir filename
      let acc2 : LoopAcc := { acc1 with bc := acc1.bc ++ [cmd] }
      if cfg.dryRun then
        -- line 112: print only; an interrupt here is outside every try
        if ev = FileEvent.interrupt Loc.dryRunPrint then
          .error (abortTrace .uncaughtKeyboardInterrupt acc2 (i + 1) total)
        else
          .ok acc2
      else
        -- the try of lines 114-133 begins here
        if ev = FileEvent.interrupt Loc.progressPrint then
          -- caught at line 134: closing message, exit(0); no dispatch happened
          .error (abortTrace (.exit 0) acc2 (i + 1) total)
        else
          -- line 121: print_progress(processed_files_counter - 1, total)
          let acc3 : LoopAcc := { acc2 with pc := acc2.pc ++ [(i, total)] }
          if ev = FileEvent.interrupt Loc.spawn then
            -- interrupted while the child runs: dispatch happened, then exit(0)
            .error (abortTrace (.exit 0)
              { acc3 with dp := acc3.dp ++ [cmd] } (i + 1) total)
          else
            let acc4 : LoopAcc := { acc3 with dp := acc3.dp ++ [cmd] }
            if ev = FileEvent.interrupt Loc.successPrint then
              -- interrupted while printing the success report: exit(0)
              .error (abortTrace (.exit 0) acc4 (i + 1) total)
            else
              -- success, FileNotFoundError, CalledProcessError and any other
              -- exception are all handled in-loop (lines 127, 139-152):
              -- the loop continues with the next file
              .ok acc4

/-- The per-file loop of lines 83-152 over the remaining matched files,
`i` files already visited. -/
def runLoop (cfg : Config) (env : Env) (total : Nat) :
    List (Path × String) → Nat → LoopAcc → RunTrace
  | [], i, acc => finishTrace total i acc
  | (relDir, filename) :: rest, i, acc =>
      match fileStep cfg env total relDir filename i acc with
      | .error tr => tr
      | .ok acc' => runLoop cfg env total rest (i + 1) acc'

/-- The whole of `process_files` (main.py lines 36-159). -/
def processFiles (cfg : Config) (env : Env) : RunTrace :=
  -- lines 50-52: source directory validation
  if env.isDir = false then
    { result := .exit 1, mkdirCalls := [], builtCommands := [],
      dispatches := [], progressCalls := [], processed := 0, total := 0,
      summary := none }
  else
    let ext := normalizeExt cfg.extension
    -- lines 58-59: os.makedirs("test", exist_ok=True), before scanning
    if env.mkdirFails ["test"] then
      { result := .uncaughtOSError ["test"], mkdirCalls := [["test"]],
        builtCommands := [], dispatches := [], progressCalls := [],
        processed := 0, total := 0, summary := none }
    -- lines 63-68: the counting scan (no surrounding try)
    else if env.scanInterrupt then
      { result := .uncaughtKeyboardInterrupt, mkdirCalls := [["test"]],
        builtCommands := [], dispatches := [], progressCalls := [],
        processed := 0, total := 0, summary := none }
    else
      let files := matchedFiles env.walk ext
      let total := files.length
      -- lines 70-72: graceful exit when nothing matched
      if total = 0 then
        { result := .exit 0, mkdirCalls := [["test"]], builtCommands := [],
          dispatches := [], progressCalls := [], processed := 0, total := 0,
          summary := none }
      else
        -- line 81: initial print_progress(0, total), then the loop
        runLoop cfg env total files 0
          { mkd := [["test"]], bc := [], dp := [], pc := [(0, total)] }

/-- Line 29 of `print_progress`: `100 * (iteration / float(total))`,
modelled over the rationals. -/
def progressPercent (iteration total : Nat) : ℚ :=
  100 * ((iteration : ℚ) / (total : ℚ))

end MFP

namespace MFP

/-! ## Helper lemmas about the embedded definitions -/

/-- The two halves of `os.path.splitext` concatenate back to the input
(character-list version). -/
theorem splitextList_concat (l : List Char) :
    (splitextList l).1 ++ (splitextList l).2 = l := by
  unfold splitextList
  split
  · simp
  · dsimp only
    split
    · exact List.take_append_drop _ _
    · simp

/-- The two halves of `os.path.splitext` concatenate back to the input. -/
theorem splitext_concat (s : String) :
    (splitext s).1 ++ (splitext s).2 = s := by
  have h := splitextList_concat s.toList
  calc (splitext s).1 ++ (splitext s).2
      = String.mk ((splitextList s.toList).1 ++ (splitextList s.toList).2) := rfl
    _ = String.mk s.toList := by rw [h]
    _ = s := rfl

/-- The destination file name of line 96 is the output name prefix glued
directly onto the original base name. -/
theorem newFileName_eq (cfg : Config) (f : String) :
    newFileName cfg f = cfg.fnamePre ++ f := by
  unfold newFileName
  rw [String.append_assoc, splitext_concat]

/-- A loop iteration whose event is not an interrupt (success or any
handled per-file error) steps to the next file, recording the directory
creation, the built command, one dispatch and one progress call. -/
theorem runLoop_cons_continue (cfg : Config) (env : Env) (total : Nat)
    (d : Path) (f : String) (rest : List (Path × String)) (i : Nat) (acc : LoopAcc)
    (hdry : cfg.dryRun = false)
    (hmk : env.mkdirFails (deriveDir cfg d) = false)
    (hev : ∀ l, env.events i ≠ FileEvent.interrupt l) :
    runLoop cfg env total ((d, f) :: rest) i acc =
      runLoop cfg env total rest (i + 1)
        { mkd := acc.mkd ++ [deriveDir cfg d],
          bc := acc.bc ++ [buildCommand cfg d f],
          dp := acc.dp ++ [buildCommand cfg d f],
          pc := acc.pc ++ [(i, total)] } := by
  have h1 := hev Loc.derive
  have h2 := hev Loc.progressPrint
  have h3 := hev Loc.spawn
  have h4 := hev Loc.successPrint
  simp [runLoop, fileStep, h1, h2, h3, h4, hmk, hdry]

/-- A loop iteration interrupted during `subprocess.run` dispatches the
current file's command and then stops the whole run with exit status 0
and no summary. -/
theorem runLoop_cons_spawn_interrupt (cfg : Config) (env : Env) (total : Nat)
    (d : Path) (f : String) (rest : List (Path × String)) (i : Nat) (acc : LoopAcc)
    (hdry : cfg.dryRun = false)
    (hmk : env.mkdirFails (deriveDir cfg d) = false)
    (hev : env.events i = FileEvent.interrupt Loc.spawn) :
    runLoop cfg env total ((d, f) :: rest) i acc =
      abortTrace (.exit 0)
        { mkd := acc.mkd ++ [deriveDir cfg d],
          bc := acc.bc ++ [buildCommand cfg d f],
          dp := acc.dp ++ [buildCommand cfg d f],
          pc := acc.pc ++ [(i, total)] } (i + 1) total := by
  simp [runLoop, fileStep, hev, hmk, hdry]

/-- If the interrupt-at-spawn event hits file `i + k` and the `k` files
before it succeed, the loop dispatches exactly `k + 1` further commands,
exits with status 0, prints no summary, and the counter stops at
`i + k + 1`. -/
theorem runLoop_spawn_abort (cfg : Config) (env : Env) (total : Nat)
    (hdry : cfg.dryRun = false)
    (hmk : ∀ p, env.mkdirFails p = false) :
    ∀ (files : List (Path × String)) (k i : Nat) (acc : LoopAcc),
      k < files.length →
      env.events (i + k) = FileEvent.interrupt Loc.spawn →
      (∀ j, j < k → env.events (i + j) = FileEvent.success) →
      (runLoop cfg env total files i acc).result = RunResult.exit 0
    ∧ (runLoop cfg env total files i acc).summary = none
    ∧ (runLoop cfg env total files i acc).dispatches.length = acc.dp.length + k + 1
    ∧ (runLoop cfg env total files i acc).processed = i + k + 1 := by
  intro files
  induction files with
  | nil =>
    intro k i acc hk _ _
    simp at hk
  | cons hd tl ih =>
    obtain ⟨d, f⟩ := hd
    intro k i acc hk hev hprev
    cases k with
    | zero =>
      have hev' : env.events i = FileEvent.interrupt Loc.spawn := by simpa using hev
      rw [runLoop_cons_spawn_interrupt cfg env total d f tl i acc hdry (hmk _) hev']
      simp [abortTrace]
    | succ k' =>
      have h0 : env.events i = FileEvent.success := by
        have := hprev 0 (Nat.succ_pos k')
        simpa using this
      rw [runLoop_cons_continue cfg env total d f tl i acc hdry (hmk _)
        (fun l h => by rw [h0] at h; exact FileEvent.noConfusion h)]
      have hk' : k' < tl.length := by simpa using hk
      have hev' : env.events ((i + 1) + k') = FileEvent.interrupt Loc.spawn := by
        have : (i + 1) + k' = i + (k' + 1) := by omega
        rw [this]; exact hev
      have hprev' : ∀ j, j < k' → env.events ((i + 1) + j) = FileEvent.success := by
        intro j hj
        have : (i + 1) + j = i + (j + 1) := by omega
        rw [this]; exact hprev (j + 1) (by omega)
      obtain ⟨r1, r2, r3, r4⟩ := ih k' (i + 1) _ hk' hev' hprev'
      refine ⟨r1, r2, ?_, ?_⟩
      · rw [r3]; simp; omega
      · rw [r4]; omega

/-- Whenever `fileStep` stops the run, the counter reads `i + 1`, no
summary is emitted, the result is not normal completion, and at most one
progress call was added. -/
theorem fileStep_error_spec (cfg : Config) (env : Env) (total : Nat)
    (d : Path) (f : String) (i : Nat) (acc : LoopAcc) (tr : RunTrace)
    (h : fileStep cfg env total d f i acc = .error tr) :
    tr.processed = i + 1 ∧ tr.summary = none ∧ tr.total = total
    ∧ tr.result ≠ RunResult.completed
    ∧ (tr.progressCalls = acc.pc ∨ tr.progressCalls = acc.pc ++ [(i, total)]) := by
  unfold fileStep at h
  dsimp only at h
  split_ifs at h <;>
    first
    | exact Except.noConfusion h
    | · obtain rfl : _ = tr := Except.error.inj h
        simp [abortTrace]

/-- Whenever `fileStep` continues, it adds at most one progress call. -/
theorem fileStep_ok_spec (cfg : Config) (env : Env) (total : Nat)
    (d : Path) (f : String) (i : Nat) (acc : LoopAcc) (acc' : LoopAcc)
    (h : fileStep cfg env total d f i acc = .ok acc') :
    acc'.pc = acc.pc ∨ acc'.pc = acc.pc ++ [(i, total)] := by
  unfold fileStep at h
  dsimp only at h
  split_ifs at h <;>
    first
    | exact Except.noConfusion h
    | · obtain rfl : _ = acc' := Except.ok.inj h
        simp

/-- Counter invariant of the loop: starting `i` files in with
`i + files.length = total`, the final counter never exceeds `total`, the
trace's total is the scan total, and on normal completion the counter
equals `total` and the summary reports `(total, processed)`. -/
theorem runLoop_counts (cfg : Config) (env : Env) (total : Nat) :
    ∀ (files : List (Path × String)) (i : Nat) (acc : LoopAcc),
      i + files.length = total →
      (runLoop cfg env total files i acc).processed ≤ total
    ∧ (runLoop cfg env total files i acc).total = total
    ∧ ((runLoop cfg env total files i acc).result = RunResult.completed →
         (runLoop cfg env total files i acc).processed = total
       ∧ (runLoop cfg env total files i acc).summary =
           some (total, (runLoop cfg env total files i acc).processed)) := by
  intro files
  induction files with
  | nil =>
    intro i acc hinv
    simp at hinv
    subst hinv
    simp [runLoop, finishTrace]
  | cons hd tl ih =>
    obtain ⟨d, f⟩ := hd
    intro i acc hinv
    rw [runLoop]
    cases h : fileStep cfg env total d f i acc with
    | error tr =>
      obtain ⟨h1, h2, h3, h4, _⟩ := fileStep_error_spec cfg env total d f i acc tr h
      simp only []
      refine ⟨?_, h3, fun hc => absurd hc h4⟩
      rw [h1]
      simp at hinv
      omega
    | ok acc' =>
      simp only []
      exact ih (i + 1) acc' (by simp at hinv ⊢; omega)

/-- In dry-run mode `fileStep` never grows the dispatch list. -/
theorem fileStep_dry_spec (cfg : Config) (env : Env) (total : Nat)
    (d : Path) (f : String) (i : Nat) (acc : LoopAcc)
    (hdry : cfg.dryRun = true) :
    (∀ tr, fileStep cfg env total d f i acc = .error tr → tr.dispatches = acc.dp)
  ∧ (∀ acc', fileStep cfg env total d f i acc = .ok acc' → acc'.dp = acc.dp) := by
  constructor <;> intro x h <;>
  · unfold fileStep at h
    dsimp only at h
    rw [hdry] at h
    split_ifs at h <;>
      first
      | exact Except.noConfusion h
      | exact absurd rfl (by assumption)
      | · first
          | obtain rfl : _ = x := Except.error.inj h
          | obtain rfl : _ = x := Except.ok.inj h
          simp [abortTrace]

/-- In dry-run mode the per-file loop spawns no process at all. -/
theorem runLoop_dry_dispatches (cfg : Config) (env : Env) (total : Nat)
    (hdry : cfg.dryRun = true) :
    ∀ (files : List (Path × String)) (i : Nat) (acc : LoopAcc),
      (runLoop cfg env total files i acc).dispatches = acc.dp := by
  intro files
  induction files with
  | nil => intro i acc; simp [runLoop, finishTrace]
  | cons hd tl ih =>
    obtain ⟨d, f⟩ := hd
    intro i acc
    rw [runLoop]
    cases h : fileStep cfg env total d f i acc with
    | error tr =>
      exact (fileStep_dry_spec cfg env total d f i acc hdry).1 tr h
    | ok acc' =>
      rw [ih (i + 1) acc', (fileStep_dry_spec cfg env total d f i acc hdry).2 acc' h]

/-- Every progress-bar invocation made by the loop has
`iteration ≤ total` and carries the scan total as its second argument. -/
theorem runLoop_progress_spec (cfg : Config) (env : Env) (total : Nat) :
    ∀ (files : List (Path × String)) (i : Nat) (acc : LoopAcc),
      i + files.length = total →
      (∀ c, c ∈ acc.pc → c.1 ≤ c.2 ∧ c.2 = total) →
      ∀ c, c ∈ (runLoop cfg env total files i acc).progressCalls →
        c.1 ≤ c.2 ∧ c.2 = total := by
  intro files
  induction files with
  | nil =>
    intro i acc _ hacc c hc
    simp [runLoop, finishTrace] at hc
    rcases hc with hc | hc
    · exact hacc c hc
    · simp [hc]
  | cons hd tl ih =>
    obtain ⟨d, f⟩ := hd
    intro i acc hinv hacc c hc
    have hi : i < total := by simp at hinv; omega
    have hstep : ∀ c, c ∈ acc.pc ++ [(i, total)] → c.1 ≤ c.2 ∧ c.2 = total := by
      intro c' hc'
      rcases List.mem_append.mp hc' with h' | h'
      · exact hacc c' h'
      · simp at h'
        simp [h']
        omega
    rw [runLoop] at hc
    revert hc
    cases h : fileStep cfg env total d f i acc with
    | error tr =>
      intro hc
      obtain ⟨_, _, _, _, hpc⟩ := fileStep_error_spec cfg env total d f i acc tr h
      rcases hpc with hpc | hpc
      · exact hacc c (hpc ▸ hc)
      · exact hstep c (hpc ▸ hc)
    | ok acc' =>
      intro hc
      refine ih (i + 1) acc' (by simp at hinv ⊢; omega) ?_ c hc
      rcases fileStep_ok_spec cfg env total d f i acc acc' h with hpc | hpc
      · intro c' hc'; exact hacc c' (hpc ▸ hc')
      · intro c' hc'; exact hstep c' (hpc ▸ hc')

/-- When the source directory is valid, the base directory is created,
no scan interrupt arrives and at least one file matched, the run is the
loop over the matched files starting from the initial progress call. -/
theorem processFiles_loop_eq (cfg : Config) (env : Env)
    (hdir : env.isDir = true)
    (hmk : env.mkdirFails ["test"] = false)
    (hscan : env.scanInterrupt = false)
    (hne : (matchedFiles env.walk (normalizeExt cfg.extension)).length ≠ 0) :
    processFiles cfg env =
      runLoop cfg env (matchedFiles env.walk (normalizeExt cfg.extension)).length
        (matchedFiles env.walk (normalizeExt cfg.extension)) 0
        { mkd := [["test"]], bc := [], dp := [],
          pc := [(0, (matchedFiles env.walk (normalizeExt cfg.extension)).length)] } := by
  simp [processFiles, hdir, hmk, hscan, hne]

/-- The loop never reads the raw `extension` field: only the matching
phase uses it (after normalization), so changing it leaves the loop
untouched. -/
theorem runLoop_ext_irrel (cfg : Config) (e : String) (env : Env) (total : Nat) :
    ∀ (files : List (Path × String)) (i : Nat) (acc : LoopAcc),
      runLoop { cfg with extension := e } env total files i acc =
        runLoop cfg env total files i acc := by
  intro files
  induction files with
  | nil => intro i acc; rfl
  | cons hd tl ih =>
    obtain ⟨d, f⟩ := hd
    intro i acc
    rw [runLoop, runLoop]
    cases h : fileStep cfg env total d f i acc with
    | error tr =>
      have h' : fileStep { cfg with extension := e } env total d f i acc =
          .error tr := h
      rw [h']
    | ok acc' =>
      have h' : fileStep { cfg with extension := e } env total d f i acc =
          .ok acc' := h
      rw [h']
      exact ih (i + 1) acc'

/-- Prepending the dot that line 56 would add makes no difference to the
normalized extension. -/
theorem normalizeExt_dot (e : String) (h : strStartsWith e "." = false) :
    normalizeExt e = normalizeExt ("." ++ e) := by
  have hdot : strStartsWith ("." ++ e) "." = true := by
    unfold strStartsWith
    have : ("." ++ e).toList = '.' :: e.toList := by
      simp [String.toList]
    rw [this]
    simp [List.isPrefixOf]
  simp [normalizeExt, h, hdot]

/-- The progress percentage of line 29 is within `[0, 100]` whenever the
caller respects `iteration ≤ total` and `total > 0`. -/
theorem progressPercent_bounds (a b : Nat) (hb : 0 < b) (hab : a ≤ b) :
    0 ≤ progressPercent a b ∧ progressPercent a b ≤ 100 := by
  unfold progressPercent
  have hb' : (0 : ℚ) < (b : ℚ) := by exact_mod_cast hb
  constructor
  · positivity
  · have h1 : (a : ℚ) / (b : ℚ) ≤ 1 := by
      rw [div_le_one hb']
      exact_mod_cast hab
    nlinarith

/-! ## Concrete configurations and environments used by the witnesses
and counterexamples -/

/-- A baseline configuration: copy `.txt` files from `src`, no dry run,
name prefix `new_`, no extra output subdirectory. -/
def cfgBase : Config :=
  { sourceDir := ["src"], extension := "txt", cmdTemplate := ["cp"],
    dryRun := false, verbose := false, fnamePre := "new_", outSubdir := [] }

/-- An environment over the given tree in which every directory creation
and every dispatch succeeds. -/
def envAllOk (walk : List (Path × List String)) : Env :=
  { isDir := true, walk := walk, mkdirFails := fun _ => false,
    scanInterrupt := false, events := fun _ => .success }

end MFP

namespace MFP

/-! ## C1 -/

/-- The configuration for the C1 counterexample: the extension argument
is the dot-leading string `.txt`. -/
def cfgC1 : Config := { cfgBase with extension := ".txt" }

/-- A source tree holding one file whose base name is upper-case. -/
def envC1 : Env := envAllOk [([], ["A.TXT"])]

/-- C1 counterexample: the file `A.TXT` is selected by the run when the
supplied pattern is `.txt` (the code lower-cases both sides and tests
the suffix), yet `A.TXT` does not satisfy the glob pattern `.txt` under
case-sensitive glob semantics — so selection is not "if and only if the
base name satisfies the supplied glob pattern case-sensitively". -/
theorem C1_glob_counterexample :
    matchedFiles envC1.walk (normalizeExt cfgC1.extension) = [([], "A.TXT")]
  ∧ (processFiles cfgC1 envC1).total = 1
  ∧ globMatch ".txt" "A.TXT" = false := by decide

/-- C1 (amended): a file discovered during the traversal is selected if
and only if its lower-cased base name ends with the lower-cased
(dot-normalized) extension argument — a case-insensitive suffix test on
the base name, not case-sensitive glob matching. -/
theorem C1_selected_iff_ci_suffix (walk : List (Path × List String))
    (ext : String) (d : Path) (f : String) :
    (d, f) ∈ matchedFiles walk ext ↔
      ∃ fs, (d, fs) ∈ walk ∧ f ∈ fs ∧ pyMatches f ext = true := by
  unfold matchedFiles
  simp only [List.mem_flatMap, List.mem_map, List.mem_filter, Prod.mk.injEq]
  constructor
  · rintro ⟨⟨d', fs⟩, hin, f', ⟨hf, hm⟩, h1, h2⟩
    exact ⟨fs, by simp_all, by simp_all, by simp_all⟩
  · rintro ⟨fs, hin, hf, hm⟩
    exact ⟨(d, fs), hin, f, ⟨hf, hm⟩, rfl, rfl⟩

/-! ## C2 -/

/-- A tree with two matched files in distinct directories, where
creating the first file's output directory fails (e.g. permission
denied). -/
def envC2 : Env :=
  { envAllOk [(["d1"], ["a.txt"]), (["d2"], ["b.txt"])] with
      mkdirFails := fun p => p == ["test", "d1"] }

/-- C2 counterexample: when `os.makedirs` fails for the first of two
matched files, the run does not continue to the second file — the
exception propagates out of `process_files` (line 102 is outside every
`try`): no command is even built, the counter stops at 1 of 2, and no
summary is printed. -/
theorem C2_continue_counterexample :
    (processFiles cfgBase envC2).result = RunResult.uncaughtOSError ["test", "d1"]
  ∧ (processFiles cfgBase envC2).total = 2
  ∧ (processFiles cfgBase envC2).processed = 1
  ∧ (processFiles cfgBase envC2).dispatches = []
  ∧ (processFiles cfgBase envC2).builtCommands = []
  ∧ (processFiles cfgBase envC2).summary = none := by decide

/-- C2 (amended): if creating the destination directory for a matched
file fails for a reason other than the directory already existing, the
error is not caught per-file: the run stops at that file with an
uncaught `OSError`, dispatching nothing further and printing no
summary. -/
theorem C2_mkdir_failure_aborts_run (cfg : Config) (env : Env) (total : Nat)
    (d : Path) (f : String) (rest : List (Path × String)) (i : Nat) (acc : LoopAcc)
    (hev : env.events i ≠ FileEvent.interrupt Loc.derive)
    (hmk : env.mkdirFails (deriveDir cfg d) = true) :
    runLoop cfg env total ((d, f) :: rest) i acc =
      abortTrace (.uncaughtOSError (deriveDir cfg d))
        { acc with mkd := acc.mkd ++ [deriveDir cfg d] } (i + 1) total := by
  simp [runLoop, fileStep, hev, hmk]

/-- C2 witness: the amended statement instantiated on `envC2`. -/
theorem C2_mkdir_failure_aborts_run_witness :
    runLoop cfgBase envC2 2 [(["d1"], "a.txt"), (["d2"], "b.txt")] 0
        { mkd := [["test"]], bc := [], dp := [], pc := [(0, 2)] } =
      abortTrace (.uncaughtOSError (deriveDir cfgBase ["d1"]))
        { mkd := [["test"]] ++ [deriveDir cfgBase ["d1"]], bc := [], dp := [],
          pc := [(0, 2)] } 1 2 :=
  C2_mkdir_failure_aborts_run cfgBase envC2 2 ["d1"] "a.txt"
    [(["d2"], "b.txt")] 0
    { mkd := [["test"]], bc := [], dp := [], pc := [(0, 2)] }
    (by decide) (by decide)

/-! ## C3 -/

/-- C3: for every matched file, the destination path is the output root
(`test` joined with the output subdirectory) followed by exactly the
file's directory segments relative to the source root, and its file name
is the output prefix concatenated directly with the original base name;
dropping the output-root segments recovers the relative directory and
name, and dropping the prefix characters recovers the base name. -/
theorem C3_destination_path_mirror (cfg : Config) (relDir : Path)
    (filename : String) :
    derivePath cfg relDir filename
      = (["test"] ++ cfg.outSubdir) ++ (relDir ++ [cfg.fnamePre ++ filename])
  ∧ (derivePath cfg relDir filename).drop ("test" :: cfg.outSubdir).length
      = relDir ++ [cfg.fnamePre ++ filename]
  ∧ (cfg.fnamePre ++ filename).toList.drop cfg.fnamePre.toList.length
      = filename.toList := by
  refine ⟨?_, ?_, ?_⟩
  · simp [derivePath, deriveDir, newFileName_eq]
  · have h1 : derivePath cfg relDir filename
        = ("test" :: cfg.outSubdir) ++ (relDir ++ [cfg.fnamePre ++ filename]) := by
      simp [derivePath, deriveDir, newFileName_eq]
    rw [h1, List.drop_left]
  · have h2 : (cfg.fnamePre ++ filename).toList
        = cfg.fnamePre.toList ++ filename.toList := by
      simp [String.toList]
    rw [h2, List.drop_left]

/-! ## C4 -/

/-- A source tree whose only file does not match the `.txt` extension. -/
def envC4 : Env := envAllOk [([], ["a.png"])]

/-- C4 counterexample: with zero matches the run does exit with success
and attempts no dispatch, but it is not true that it creates no output
directory entries: `os.makedirs("test", exist_ok=True)` runs before the
scan (line 59), so the output base directory is created. -/
theorem C4_no_entries_counterexample :
    (processFiles cfgBase envC4).result = RunResult.exit 0
  ∧ (processFiles cfgBase envC4).dispatches = []
  ∧ (processFiles cfgBase envC4).mkdirCalls = [["test"]]
  ∧ (processFiles cfgBase envC4).mkdirCalls ≠ [] := by decide

/-- C4 (amended): if the source directory exists but no file matches,
the run exits with success status, attempts zero dispatches, and
creates no output directory entries other than the output base
directory `test`, which is unconditionally ensured before scanning. -/
theorem C4_zero_match_exit (cfg : Config) (env : Env)
    (hdir : env.isDir = true)
    (hmk : env.mkdirFails ["test"] = false)
    (hscan : env.scanInterrupt = false)
    (hzero : matchedFiles env.walk (normalizeExt cfg.extension) = []) :
    processFiles cfg env =
      { result := .exit 0, mkdirCalls := [["test"]], builtCommands := [],
        dispatches := [], progressCalls := [], processed := 0, total := 0,
        summary := none } := by
  simp [processFiles, hdir, hmk, hscan, hzero]

/-- C4 witness: the amended statement instantiated on `envC4`. -/
theorem C4_zero_match_exit_witness :
    processFiles cfgBase envC4 =
      { result := .exit 0, mkdirCalls := [["test"]], builtCommands := [],
        dispatches := [], progressCalls := [], processed := 0, total := 0,
        summary := none } :=
  C4_zero_match_exit cfgBase envC4 rfl rfl rfl (by decide)

end MFP

namespace MFP

/-! ## C5 -/

/-- C5: if the operator interrupt arrives during `subprocess.run` for
the matched file with 0-based index `k` (the `k+1`-st of `n` files) and
the files before it succeeded, the run stops immediately: exactly
`k + 1` commands were ever dispatched (so files after the interrupted
one are never dispatched), no final summary is emitted, and the process
exits with status 0. -/
theorem C5_interrupt_stops_run (cfg : Config) (env : Env)
    (hdir : env.isDir = true)
    (hmk : ∀ p, env.mkdirFails p = false)
    (hscan : env.scanInterrupt = false)
    (hdry : cfg.dryRun = false)
    (k : Nat)
    (hk : k < (matchedFiles env.walk (normalizeExt cfg.extension)).length)
    (hev : env.events k = FileEvent.interrupt Loc.spawn)
    (hprev : ∀ j, j < k → env.events j = FileEvent.success) :
    (processFiles cfg env).result = RunResult.exit 0
  ∧ (processFiles cfg env).summary = none
  ∧ (processFiles cfg env).dispatches.length = k + 1
  ∧ (processFiles cfg env).processed = k + 1 := by
  have hne : (matchedFiles env.walk (normalizeExt cfg.extension)).length ≠ 0 := by
    omega
  rw [processFiles_loop_eq cfg env hdir (hmk _) hscan hne]
  have hev' : env.events (0 + k) = FileEvent.interrupt Loc.spawn := by
    simpa using hev
  have hprev' : ∀ j, j < k → env.events (0 + j) = FileEvent.success := by
    intro j hj; simpa using hprev j hj
  obtain ⟨r1, r2, r3, r4⟩ :=
    runLoop_spawn_abort cfg env _ hdry hmk _ k 0 _ hk hev' hprev'
  refine ⟨r1, r2, ?_, ?_⟩
  · rw [r3]; simp
  · rw [r4]; omega

/-- Two matched files where the interrupt arrives while the first one's
command is running. -/
def envC5 : Env :=
  { envAllOk [([], ["a.txt", "b.txt"])] with
      events := fun j => if j == 0 then .interrupt Loc.spawn else .success }

/-- C5 witness: interrupt during file 1 of 2. -/
theorem C5_interrupt_stops_run_witness :
    (processFiles cfgBase envC5).result = RunResult.exit 0
  ∧ (processFiles cfgBase envC5).summary = none
  ∧ (processFiles cfgBase envC5).dispatches.length = 0 + 1
  ∧ (processFiles cfgBase envC5).processed = 0 + 1 :=
  C5_interrupt_stops_run cfgBase envC5 rfl (fun _ => rfl) rfl rfl 0
    (by decide) (by decide) (fun j hj => absurd hj (Nat.not_lt_zero j))

/-! ## C6 -/

/-- C6: when the event for the current file is any non-interrupt
dispatch outcome — success, executable not found, non-zero exit status,
or any other unexpected error — the loop records the dispatch and
continues with the remaining matched files; no such per-file failure
terminates the run. -/
theorem C6_dispatch_failures_nonfatal (cfg : Config) (env : Env) (total : Nat)
    (d : Path) (f : String) (rest : List (Path × String)) (i : Nat) (acc : LoopAcc)
    (hdry : cfg.dryRun = false)
    (hmk : env.mkdirFails (deriveDir cfg d) = false)
    (hev : ∀ l, env.events i ≠ FileEvent.interrupt l) :
    runLoop cfg env total ((d, f) :: rest) i acc =
      runLoop cfg env total rest (i + 1)
        { mkd := acc.mkd ++ [deriveDir cfg d],
          bc := acc.bc ++ [buildCommand cfg d f],
          dp := acc.dp ++ [buildCommand cfg d f],
          pc := acc.pc ++ [(i, total)] } :=
  runLoop_cons_continue cfg env total d f rest i acc hdry hmk hev

/-- One matched file whose executable cannot be found. -/
def envC6 : Env :=
  { envAllOk [([], ["a.txt"])] with events := fun _ => .notFound }

/-- C6 witness: a `FileNotFoundError` dispatch steps to the next
iteration instead of stopping. -/
theorem C6_dispatch_failures_nonfatal_witness :
    runLoop cfgBase envC6 1 [([], "a.txt")] 0
        { mkd := [["test"]], bc := [], dp := [], pc := [(0, 1)] } =
      runLoop cfgBase envC6 1 [] 1
        { mkd := [["test"]] ++ [deriveDir cfgBase []],
          bc := [buildCommand cfgBase [] "a.txt"],
          dp := [buildCommand cfgBase [] "a.txt"],
          pc := [(0, 1)] ++ [(0, 1)] } :=
  C6_dispatch_failures_nonfatal cfgBase envC6 1 [] "a.txt" [] 0
    { mkd := [["test"]], bc := [], dp := [], pc := [(0, 1)] }
    rfl rfl (fun _l h => FileEvent.noConfusion h)

/-! ## C7 -/

/-- C7: the processed counter never exceeds the total fixed by the
scan; on normal completion the counter equals the total and the summary
reports exactly `(total, processed)`; and in dry-run mode no process is
ever spawned while the files still count as processed. -/
theorem C7_counter_invariants (cfg : Config) (env : Env) :
    (processFiles cfg env).processed ≤ (processFiles cfg env).total
  ∧ ((processFiles cfg env).result = RunResult.completed →
       (processFiles cfg env).processed = (processFiles cfg env).total
     ∧ (processFiles cfg env).summary =
         some ((processFiles cfg env).total, (processFiles cfg env).processed))
  ∧ (cfg.dryRun = true → (processFiles cfg env).dispatches = []) := by
  cases hdir : env.isDir with
  | false => simp [processFiles, hdir]
  | true =>
    cases hmk : env.mkdirFails ["test"] with
    | true => simp [processFiles, hdir, hmk]
    | false =>
      cases hscan : env.scanInterrupt with
      | true => simp [processFiles, hdir, hmk, hscan]
      | false =>
        by_cases hne : (matchedFiles env.walk (normalizeExt cfg.extension)).length = 0
        · simp [processFiles, hdir, hmk, hscan, hne]
        · rw [processFiles_loop_eq cfg env hdir hmk hscan hne]
          obtain ⟨r1, r2, r3⟩ := runLoop_counts cfg env
            (matchedFiles env.walk (normalizeExt cfg.extension)).length
            (matchedFiles env.walk (normalizeExt cfg.extension)) 0
            { mkd := [["test"]], bc := [], dp := [],
              pc := [(0, (matchedFiles env.walk (normalizeExt cfg.extension)).length)] }
            (by simp)
          refine ⟨by rw [r2]; exact r1, ?_, ?_⟩
          · intro hc
            obtain ⟨s1, s2⟩ := r3 hc
            rw [r2]
            exact ⟨s1, s2⟩
          · intro hdry
            rw [runLoop_dry_dispatches cfg env _ hdry]

/-- A dry-run configuration over two matched files. -/
def cfgC7 : Config := { cfgBase with dryRun := true }

/-- The tree for the C7, C8 and C9 witnesses. -/
def envC7 : Env := envAllOk [(["a"], ["x.txt"]), (["a", "b"], ["y.txt"])]

/-- C7 witness: a completed dry run processes both files, reports them
in the summary, and spawns nothing. -/
theorem C7_counter_invariants_witness :
    (processFiles cfgC7 envC7).processed ≤ (processFiles cfgC7 envC7).total
  ∧ (processFiles cfgC7 envC7).summary =
      some ((processFiles cfgC7 envC7).total, (processFiles cfgC7 envC7).processed)
  ∧ (processFiles cfgC7 envC7).dispatches = [] :=
  ⟨(C7_counter_invariants cfgC7 envC7).1,
   ((C7_counter_invariants cfgC7 envC7).2.1 (by decide)).2,
   (C7_counter_invariants cfgC7 envC7).2.2 rfl⟩

/-! ## C8 -/

/-- C8: every `print_progress` invocation the run makes carries a
strictly positive total (the zero-match run exits before the processing
phase, so `total = 0` never reaches the division of line 29) and an
iteration bounded by the total, so the percentage `100 * current/total`
is well-defined and lies in `[0, 100]`. -/
theorem C8_progress_division_safe (cfg : Config) (env : Env) :
    ∀ c ∈ (processFiles cfg env).progressCalls,
      0 < c.2 ∧ c.1 ≤ c.2
    ∧ 0 ≤ progressPercent c.1 c.2 ∧ progressPercent c.1 c.2 ≤ 100 := by
  intro c hc
  cases hdir : env.isDir with
  | false => simp [processFiles, hdir] at hc
  | true =>
    cases hmk : env.mkdirFails ["test"] with
    | true => simp [processFiles, hdir, hmk] at hc
    | false =>
      cases hscan : env.scanInterrupt with
      | true => simp [processFiles, hdir, hmk, hscan] at hc
      | false =>
        by_cases hne : (matchedFiles env.walk (normalizeExt cfg.extension)).length = 0
        · simp [processFiles, hdir, hmk, hscan, hne] at hc
        · rw [processFiles_loop_eq cfg env hdir hmk hscan hne] at hc
          have hpos : 0 < (matchedFiles env.walk (normalizeExt cfg.extension)).length := by
            omega
          have hb := runLoop_progress_spec cfg env
            (matchedFiles env.walk (normalizeExt cfg.extension)).length
            (matchedFiles env.walk (normalizeExt cfg.extension)) 0
            { mkd := [["test"]], bc := [], dp := [],
              pc := [(0, (matchedFiles env.walk (normalizeExt cfg.extension)).length)] }
            (by simp)
            (by intro c' hc'; simp at hc'; simp [hc']) c hc
          obtain ⟨hab, hbt⟩ := hb
          have hbpos : 0 < c.2 := by rw [hbt]; exact hpos
          obtain ⟨b1, b2⟩ := progressPercent_bounds c.1 c.2 hbpos hab
          exact ⟨hbpos, hab, b1, b2⟩

/-- C8 witness: the progress call `(1, 2)` made by a two-file run. -/
theorem C8_progress_division_safe_witness :
    0 < (1, 2).2 ∧ (1, 2).1 ≤ (1, 2).2
  ∧ 0 ≤ progressPercent (1, 2).1 (1, 2).2
  ∧ progressPercent (1, 2).1 (1, 2).2 ≤ 100 :=
  C8_progress_division_safe cfgBase envC7 (1, 2) (by decide)

/-! ## C9 -/

/-- C9: when the extension argument does not begin with a dot, the run
behaves identically — same trace, hence same selected files, same built
commands, same dispatches — to the run whose extension argument has the
dot prepended. -/
theorem C9_extension_dot_equivalent (cfg : Config) (env : Env)
    (h : strStartsWith cfg.extension "." = false) :
    processFiles cfg env =
      processFiles { cfg with extension := "." ++ cfg.extension } env := by
  have hne := normalizeExt_dot cfg.extension h
  simp only [processFiles, runLoop_ext_irrel]
  rw [← hne]

/-- C9 witness: `txt` and `.txt` produce identical runs on `envC7`. -/
theorem C9_extension_dot_equivalent_witness :
    processFiles cfgBase envC7 =
      processFiles { cfgBase with extension := "." ++ cfgBase.extension } envC7 :=
  C9_extension_dot_equivalent cfgBase envC7 (by decide)

/-! ## C10 -/

/-- One matched file whose interrupt arrives during the `print_progress`
call of line 121 — inside the `try`, but not during `subprocess.run`. -/
def envC10 : Env :=
  { envAllOk [([], ["a.txt"])] with
      events := fun _ => .interrupt Loc.progressPrint }

/-- C10 counterexample: an interrupt arriving during the progress-bar
print of line 121 — before any child process is spawned for the file —
is still converted to the graceful closing-message-and-exit-0 path (the
`try` of lines 114-133 covers it), so the conversion is not limited to
the spawn/await of the child process: here the run exits 0 with no
dispatch at all. -/
theorem C10_only_spawn_counterexample :
    (processFiles cfgBase envC10).result = RunResult.exit 0
  ∧ (processFiles cfgBase envC10).dispatches = []
  ∧ (processFiles cfgBase envC10).summary = none
  ∧ (processFiles cfgBase envC10).processed = 1 := by decide

/-- C10 (amended): the graceful exit-0 conversion happens exactly for
interrupts arriving inside the non-dry-run dispatch `try` block — the
progress print before the spawn, the spawn/await itself, and the
success-output printing after it — while interrupts during directory
scanning, destination-path derivation, or the dry-run print are not
caught by `process_files` and propagate as ordinary exceptions. -/
theorem C10_interrupt_catch_surface (cfg : Config) (env : Env) (total : Nat)
    (d : Path) (f : String) (rest : List (Path × String)) (i : Nat) (acc : LoopAcc)
    (hmk : env.mkdirFails (deriveDir cfg d) = false) :
    (env.events i = FileEvent.interrupt Loc.derive →
       (runLoop cfg env total ((d, f) :: rest) i acc).result =
         RunResult.uncaughtKeyboardInterrupt)
  ∧ (cfg.dryRun = true → env.events i = FileEvent.interrupt Loc.dryRunPrint →
       (runLoop cfg env total ((d, f) :: rest) i acc).result =
         RunResult.uncaughtKeyboardInterrupt)
  ∧ (cfg.dryRun = false →
       ∀ l, (l = Loc.progressPrint ∨ l = Loc.spawn ∨ l = Loc.successPrint) →
         env.events i = FileEvent.interrupt l →
         (runLoop cfg env total ((d, f) :: rest) i acc).result = RunResult.exit 0)
  ∧ (env.isDir = true → env.mkdirFails ["test"] = false →
       env.scanInterrupt = true →
       (processFiles cfg env).result = RunResult.uncaughtKeyboardInterrupt) := by
  refine ⟨?_, ?_, ?_, ?_⟩
  · intro hev
    simp [runLoop, fileStep, hev, abortTrace]
  · intro hdry hev
    simp [runLoop, fileStep, hev, hmk, hdry, abortTrace]
  · intro hdry l hl hev
    rcases hl with rfl | rfl | rfl <;>
      simp [runLoop, fileStep, hev, hmk, hdry, abortTrace]
  · intro hdir hmk2 hscan
    simp [processFiles, hdir, hmk2, hscan]

/-- One matched file whose interrupt arrives during path derivation. -/
def envC10b : Env :=
  { envAllOk [([], ["a.txt"])] with
      events := fun _ => .interrupt Loc.derive }

/-- C10 witness: an interrupt during path derivation propagates as an
uncaught exception. -/
theorem C10_interrupt_catch_surface_witness :
    (runLoop cfgBase envC10b 1 [([], "a.txt")] 0
        { mkd := [["test"]], bc := [], dp := [], pc := [(0, 1)] }).result =
      RunResult.uncaughtKeyboardInterrupt :=
  (C10_interrupt_catch_surface cfgBase envC10b 1 [] "a.txt" [] 0
    { mkd := [["test"]], bc := [], dp := [], pc := [(0, 1)] } rfl).1 rfl

end MFP
